import Mathlib

set_option maxHeartbeats 1000000

namespace Merlin

/-!
Shallow embedding of the Merlin client library core:
the streaming-event decoder (merlin/api/responses/streaming_events.py)
and the chunked multipart upload coordinator (merlin/api/uploads.py).

JSON values are modelled by the inductive `JsonValue`; JSON numbers are
modelled as integers (the streaming protocol and upload records carry
integer counters and sizes; floating point is out of scope).  A Python
mapping is modelled as an association list with unique keys, looked up
by first match.
-/

inductive JsonValue : Type where
  | null : JsonValue
  | bool : Bool → JsonValue
  | int : Int → JsonValue
  | str : String → JsonValue
  | arr : List JsonValue → JsonValue
  | obj : List (String × JsonValue) → JsonValue

/-- A JSON object / Python dict: association list, first match wins. -/
abbrev JsonObj : Type := List (String × JsonValue)

/-- First-match association lookup; `none` means the key is absent. -/
def lookupKey (d : JsonObj) (k : String) : Option JsonValue :=
  match d with
  | [] => none
  | (k2, v) :: rest => if k2 = k then some v else lookupKey rest k

/-- Python `d.get(k, default)`: the stored value when the key is present
(even when that value is JSON null), otherwise the default. -/
def dictGetD (d : JsonObj) (k : String) (default : JsonValue) : JsonValue :=
  match lookupKey d k with
  | some v => v
  | none => default

/-- Python `d.get(k)`: absent keys give Python `None`, i.e. JSON null. -/
def dictGet (d : JsonObj) (k : String) : JsonValue :=
  dictGetD d k JsonValue.null

/-- Python `isinstance(v, int)` on a decoded JSON value; `bool` is an
`int` subclass in Python, so booleans pass the check. -/
def pyIsInt : JsonValue → Bool
  | JsonValue.int _ => true
  | JsonValue.bool _ => true
  | _ => false

/-- Python `int(v)` for values passing `pyIsInt`. -/
def pyToInt : JsonValue → Int
  | JsonValue.int n => n
  | JsonValue.bool b => if b then 1 else 0
  | _ => 0

/-- Decimal digit characters, built from code points. -/
def natReprAux : Nat → Nat → List Char
  | 0, _ => []
  | fuel + 1, n =>
    if n < 10 then [Char.ofNat (48 + n)]
    else natReprAux fuel (n / 10) ++ [Char.ofNat (48 + n % 10)]

/-- Decimal representation of a natural number, as produced by Python
`str` on a non-negative `int`. -/
def natRepr (n : Nat) : String :=
  String.mk (natReprAux (n + 1) n)

/-- Python `str` on an `int`: decimal notation, minus sign for negatives. -/
def intRepr : Int → String
  | Int.ofNat m => natRepr m
  | Int.negSucc m => "-" ++ natRepr (m + 1)

/-- Single-quote character (code point 39). -/
def quoteChar : Char := Char.ofNat 39

/-- Backslash character (code point 92). -/
def backslashChar : Char := Char.ofNat 92

/-- CPython repr escaping of one character inside a string literal
(common cases: backslash, quote, newline, carriage return, tab;
other characters are kept as they are). -/
def pyEscapeChar (c : Char) : String :=
  if c.toNat = 92 then String.mk [backslashChar, backslashChar]
  else if c.toNat = 39 then String.mk [backslashChar, quoteChar]
  else if c.toNat = 10 then String.mk [backslashChar, Char.ofNat 110]
  else if c.toNat = 13 then String.mk [backslashChar, Char.ofNat 114]
  else if c.toNat = 9 then String.mk [backslashChar, Char.ofNat 116]
  else String.singleton c

/-- CPython repr of a string: single-quoted with escapes (the variant
that switches to double quotes is not needed by any property here). -/
def pyReprString (s : String) : String :=
  String.singleton quoteChar ++ (String.join (s.toList.map pyEscapeChar) ++ String.singleton quoteChar)

mutual

/-- CPython `repr` of a decoded JSON value. -/
def pyRepr : JsonValue → String
  | JsonValue.null => "None"
  | JsonValue.bool true => "True"
  | JsonValue.bool false => "False"
  | JsonValue.int n => intRepr n
  | JsonValue.str s => pyReprString s
  | JsonValue.arr xs => "[" ++ (pyReprSeq xs ++ "]")
  | JsonValue.obj kvs => "\x7b" ++ (pyReprPairs kvs ++ "\x7d")

/-- Comma-separated reprs of list elements. -/
def pyReprSeq : List JsonValue → String
  | [] => ""
  | [v] => pyRepr v
  | v :: v2 :: rest => pyRepr v ++ ", " ++ pyReprSeq (v2 :: rest)

/-- Comma-separated `key: value` reprs of dict items. -/
def pyReprPairs : List (String × JsonValue) → String
  | [] => ""
  | [(k, v)] => pyReprString k ++ ": " ++ pyRepr v
  | (k, v) :: kv2 :: rest => pyReprString k ++ ": " ++ pyRepr v ++ ", " ++ pyReprPairs (kv2 :: rest)

end

/-- Python `str(v)` on a decoded JSON value: a string is returned as
itself, every other value by its repr. -/
def pyStr : JsonValue → String
  | JsonValue.str s => s
  | v => pyRepr v

/-!
Event Schema Registry: string constants for all documented streaming
event types (class `EventTypes` in streaming_events.py).
-/

namespace EventTypes

def RESPONSE_CREATED : String := "response.created"

def RESPONSE_IN_PROGRESS : String := "response.in_progress"

def RESPONSE_COMPLETED : String := "response.completed"

def RESPONSE_FAILED : String := "response.failed"

def RESPONSE_INCOMPLETE : String := "response.incomplete"

def RESPONSE_QUEUED : String := "response.queued"

def OUTPUT_ITEM_ADDED : String := "response.output_item.added"

def OUTPUT_ITEM_DONE : String := "response.output_item.done"

def CONTENT_PART_ADDED : String := "response.content_part.added"

def CONTENT_PART_DONE : String := "response.content_part.done"

def OUTPUT_TEXT_DELTA : String := "response.output_text.delta"

def OUTPUT_TEXT_DONE : String := "response.output_text.done"

def OUTPUT_TEXT_ANNOTATION_ADDED : String := "response.output_text.annotation.added"

def REFUSAL_DELTA : String := "response.refusal.delta"

def REFUSAL_DONE : String := "response.refusal.done"

def FUNCTION_CALL_ARGS_DELTA : String := "response.function_call_arguments.delta"

def FUNCTION_CALL_ARGS_DONE : String := "response.function_call_arguments.done"

def FILE_SEARCH_IN_PROGRESS : String := "response.file_search_call.in_progress"

def FILE_SEARCH_SEARCHING : String := "response.file_search_call.searching"

def FILE_SEARCH_COMPLETED : String := "response.file_search_call.completed"

def WEB_SEARCH_IN_PROGRESS : String := "response.web_search_call.in_progress"

def WEB_SEARCH_SEARCHING : String := "response.web_search_call.searching"

def WEB_SEARCH_COMPLETED : String := "response.web_search_call.completed"

def REASONING_SUMMARY_PART_ADDED : String := "response.reasoning_summary_part.added"

def REASONING_SUMMARY_PART_DONE : String := "response.reasoning_summary_part.done"

def REASONING_SUMMARY_TEXT_DELTA : String := "response.reasoning_summary_text.delta"

def REASONING_SUMMARY_TEXT_DONE : String := "response.reasoning_summary_text.done"

def REASONING_TEXT_DELTA : String := "response.reasoning_text.delta"

def REASONING_TEXT_DONE : String := "response.reasoning_text.done"

def IMAGE_GEN_COMPLETED : String := "response.image_generation_call.completed"

def IMAGE_GEN_GENERATING : String := "response.image_generation_call.generating"

def IMAGE_GEN_IN_PROGRESS : String := "response.image_generation_call.in_progress"

def IMAGE_GEN_PARTIAL_IMAGE : String := "response.image_generation_call.partial_image"

def MCP_ARGS_DELTA : String := "response.mcp_call_arguments.delta"

def MCP_ARGS_DONE : String := "response.mcp_call_arguments.done"

def MCP_COMPLETED : String := "response.mcp_call.completed"

def MCP_FAILED : String := "response.mcp_call.failed"

def MCP_IN_PROGRESS : String := "response.mcp_call.in_progress"

def MCP_LIST_TOOLS_COMPLETED : String := "response.mcp_list_tools.completed"

def MCP_LIST_TOOLS_FAILED : String := "response.mcp_list_tools.failed"

def MCP_LIST_TOOLS_IN_PROGRESS : String := "response.mcp_list_tools.in_progress"

def CI_IN_PROGRESS : String := "response.code_interpreter_call.in_progress"

def CI_INTERPRETING : String := "response.code_interpreter_call.interpreting"

def CI_COMPLETED : String := "response.code_interpreter_call.completed"

def CI_CODE_DELTA : String := "response.code_interpreter_call_code.delta"

def CI_CODE_DONE : String := "response.code_interpreter_call_code.done"

def CUSTOM_TOOL_INPUT_DELTA : String := "response.custom_tool_call_input.delta"

def CUSTOM_TOOL_INPUT_DONE : String := "response.custom_tool_call_input.done"

def ERROR : String := "error"

end EventTypes

/-- Every discriminator string the registry defines, in source order. -/
def registry : List String :=
  [EventTypes.RESPONSE_CREATED, EventTypes.RESPONSE_IN_PROGRESS,
   EventTypes.RESPONSE_COMPLETED, EventTypes.RESPONSE_FAILED,
   EventTypes.RESPONSE_INCOMPLETE, EventTypes.RESPONSE_QUEUED,
   EventTypes.OUTPUT_ITEM_ADDED, EventTypes.OUTPUT_ITEM_DONE,
   EventTypes.CONTENT_PART_ADDED, EventTypes.CONTENT_PART_DONE,
   EventTypes.OUTPUT_TEXT_DELTA, EventTypes.OUTPUT_TEXT_DONE,
   EventTypes.OUTPUT_TEXT_ANNOTATION_ADDED,
   EventTypes.REFUSAL_DELTA, EventTypes.REFUSAL_DONE,
   EventTypes.FUNCTION_CALL_ARGS_DELTA, EventTypes.FUNCTION_CALL_ARGS_DONE,
   EventTypes.FILE_SEARCH_IN_PROGRESS, EventTypes.FILE_SEARCH_SEARCHING,
   EventTypes.FILE_SEARCH_COMPLETED,
   EventTypes.WEB_SEARCH_IN_PROGRESS, EventTypes.WEB_SEARCH_SEARCHING,
   EventTypes.WEB_SEARCH_COMPLETED,
   EventTypes.REASONING_SUMMARY_PART_ADDED, EventTypes.REASONING_SUMMARY_PART_DONE,
   EventTypes.REASONING_SUMMARY_TEXT_DELTA, EventTypes.REASONING_SUMMARY_TEXT_DONE,
   EventTypes.REASONING_TEXT_DELTA, EventTypes.REASONING_TEXT_DONE,
   EventTypes.IMAGE_GEN_COMPLETED, EventTypes.IMAGE_GEN_GENERATING,
   EventTypes.IMAGE_GEN_IN_PROGRESS, EventTypes.IMAGE_GEN_PARTIAL_IMAGE,
   EventTypes.MCP_ARGS_DELTA, EventTypes.MCP_ARGS_DONE,
   EventTypes.MCP_COMPLETED, EventTypes.MCP_FAILED, EventTypes.MCP_IN_PROGRESS,
   EventTypes.MCP_LIST_TOOLS_COMPLETED, EventTypes.MCP_LIST_TOOLS_FAILED,
   EventTypes.MCP_LIST_TOOLS_IN_PROGRESS,
   EventTypes.CI_IN_PROGRESS, EventTypes.CI_INTERPRETING, EventTypes.CI_COMPLETED,
   EventTypes.CI_CODE_DELTA, EventTypes.CI_CODE_DONE,
   EventTypes.CUSTOM_TOOL_INPUT_DELTA, EventTypes.CUSTOM_TOOL_INPUT_DONE,
   EventTypes.ERROR]

/-- The four terminal discriminators tested by `is_terminal`. -/
def terminalTypes : List String :=
  [EventTypes.RESPONSE_COMPLETED, EventTypes.RESPONSE_FAILED,
   EventTypes.RESPONSE_INCOMPLETE, EventTypes.ERROR]

/-- Decoded streaming event (dataclass `StreamEvent`).  Fields the
Python code stores untyped (item_id, delta, ...) are `JsonValue`, where
`JsonValue.null` plays the role of Python `None` exactly as in the
source; fields the code type-checks before storing are `Option`-typed.
The source field named after the added text annotation payload is
called `annotation_obj` here. -/
structure StreamEvent : Type where
  type : String
  sequence_number : Option Int
  response : Option JsonObj
  item_id : JsonValue
  output_index : JsonValue
  content_index : JsonValue
  summary_index : JsonValue
  delta : JsonValue
  text : JsonValue
  refusal : JsonValue
  arguments : JsonValue
  code : JsonValue
  partial_image_b64 : JsonValue
  partial_image_index : JsonValue
  annotation_obj : Option JsonObj
  annotation_index : JsonValue
  logprobs : Option (List JsonValue)
  error_code : JsonValue
  error_message : JsonValue
  error_param : JsonValue
  raw : JsonObj

/-- `StreamEvent.from_dict`: build a StreamEvent from a raw event dict.
Line-by-line translation of the classmethod; total on any mapping. -/
def StreamEvent.from_dict (data : JsonObj) : StreamEvent :=
  let event_type := pyStr (dictGetD data "type" (JsonValue.str ""))
  let seq := dictGet data "sequence_number"
  { type := event_type
    sequence_number := if pyIsInt seq then some (pyToInt seq) else none
    response :=
      match dictGet data "response" with
      | JsonValue.obj kvs => some kvs
      | _ => none
    item_id := dictGet data "item_id"
    output_index := dictGet data "output_index"
    content_index := dictGet data "content_index"
    summary_index := dictGet data "summary_index"
    delta := dictGet data "delta"
    text := dictGet data "text"
    refusal := dictGet data "refusal"
    arguments := dictGet data "arguments"
    code := dictGet data "code"
    partial_image_b64 := dictGet data "partial_image_b64"
    partial_image_index := dictGet data "partial_image_index"
    annotation_obj :=
      match dictGet data "annotation" with
      | JsonValue.obj kvs => some kvs
      | _ => none
    annotation_index := dictGet data "annotation_index"
    logprobs :=
      match dictGet data "logprobs" with
      | JsonValue.arr xs => some xs
      | _ => none
    error_code := if event_type = EventTypes.ERROR then dictGet data "code" else JsonValue.null
    error_message := if event_type = EventTypes.ERROR then dictGet data "message" else JsonValue.null
    error_param := if event_type = EventTypes.ERROR then dictGet data "param" else JsonValue.null
    raw := data }

/-- Predicate `is_error`: true exactly for the generic error event. -/
def StreamEvent.is_error (e : StreamEvent) : Bool :=
  e.type = EventTypes.ERROR

/-- Predicate `is_terminal`: the event type is one of the four
lifecycle-terminal discriminators. -/
def StreamEvent.is_terminal (e : StreamEvent) : Bool :=
  terminalTypes.contains e.type

/-- `parse_stream_event`: light wrapper around `StreamEvent.from_dict`. -/
def parse_stream_event (data : JsonObj) : StreamEvent :=
  StreamEvent.from_dict data

/-! Helper lemmas: the Python string conversion of a JSON value equals
the literal "error" exactly when the value is the JSON string "error". -/

theorem data_append (s t : String) : (s ++ t).data = s.data ++ t.data := by
  cases s
  cases t
  rfl

theorem ne_error_of_head (s : String) (c : Char) (l : List Char)
    (hd : s.data = c :: l) (hc : c.toNat ≠ 101) : s ≠ "error" := by
  intro h
  apply hc
  have h2 : (c :: l : List Char) = ['e', 'r', 'r', 'o', 'r'] := by rw [← hd, h]
  injection h2 with hc2 _
  rw [hc2]
  decide

theorem one_char_append_ne_error (s : String) (c : Char) (t : String)
    (hs : s.data = [c]) (hc : c.toNat ≠ 101) : s ++ t ≠ "error" := by
  apply ne_error_of_head _ c t.data _ hc
  rw [data_append, hs]
  rfl

theorem natReprAux_digits (fuel : Nat) :
    ∀ (n : Nat), ∀ c ∈ natReprAux fuel n, 48 ≤ c.toNat ∧ c.toNat ≤ 57 := by
  induction fuel with
  | zero => intro n c hc; simp [natReprAux] at hc
  | succ f ih =>
    intro n c hc
    by_cases h : n < 10
    · simp [natReprAux, h] at hc
      subst hc
      have : (Char.ofNat (48 + n)).toNat = 48 + n := by interval_cases n <;> decide
      omega
    · simp [natReprAux, h] at hc
      rcases hc with hc | hc
      · exact ih _ c hc
      · subst hc
        have h2 : n % 10 < 10 := Nat.mod_lt _ (by omega)
        have : (Char.ofNat (48 + n % 10)).toNat = 48 + n % 10 := by
          interval_cases h3 : (n % 10) <;> decide
        omega

theorem natRepr_ne_error (n : Nat) : natRepr n ≠ "error" := by
  intro h
  have hd : natReprAux (n + 1) n = ['e', 'r', 'r', 'o', 'r'] := congrArg String.data h
  have hm : ('e' : Char) ∈ natReprAux (n + 1) n := by
    rw [hd]
    exact List.mem_cons_self _ _
  have hdig := natReprAux_digits (n + 1) n _ hm
  have he : ('e' : Char).toNat = 101 := rfl
  omega

theorem intRepr_ne_error (n : Int) : intRepr n ≠ "error" := by
  cases n with
  | ofNat m => exact natRepr_ne_error m
  | negSucc m =>
    show "-" ++ natRepr (m + 1) ≠ "error"
    exact one_char_append_ne_error _ (Char.ofNat 45) _ rfl (by decide)

theorem pyRepr_ne_error (v : JsonValue) : pyRepr v ≠ "error" := by
  cases v with
  | null => simp only [pyRepr]; decide
  | bool b => cases b <;> (simp only [pyRepr]; decide)
  | int n => simp only [pyRepr]; exact intRepr_ne_error n
  | str s =>
    simp only [pyRepr, pyReprString]
    exact one_char_append_ne_error _ quoteChar _ rfl (by decide)
  | arr xs =>
    simp only [pyRepr]
    exact one_char_append_ne_error _ (Char.ofNat 91) _ (by decide) (by decide)
  | obj kvs =>
    simp only [pyRepr]
    exact one_char_append_ne_error _ (Char.ofNat 123) _ (by decide) (by decide)

theorem pyStr_eq_error_iff (v : JsonValue) :
    pyStr v = "error" ↔ v = JsonValue.str "error" := by
  cases v with
  | str s => simp [pyStr]
  | null => exact iff_of_false (pyRepr_ne_error _) (by simp)
  | bool b => exact iff_of_false (pyRepr_ne_error _) (by simp)
  | int n => exact iff_of_false (pyRepr_ne_error _) (by simp)
  | arr xs => exact iff_of_false (pyRepr_ne_error _) (by simp)
  | obj kvs => exact iff_of_false (pyRepr_ne_error _) (by simp)

/-- C1: the decoded event exposes the payload fields `code`, `message`,
`param` as `error_code`/`error_message`/`error_param` exactly when the
raw object's `type` is the string "error"; for any other `type` value
(or a missing `type`) all three stay absent even when the raw object
contains keys named `code`/`message`/`param`. -/
theorem C1_error_field_isolation (x : JsonObj) :
    (lookupKey x "type" = some (JsonValue.str "error") →
      (StreamEvent.from_dict x).error_code = dictGet x "code" ∧
      (StreamEvent.from_dict x).error_message = dictGet x "message" ∧
      (StreamEvent.from_dict x).error_param = dictGet x "param") ∧
    (lookupKey x "type" ≠ some (JsonValue.str "error") →
      (StreamEvent.from_dict x).error_code = JsonValue.null ∧
      (StreamEvent.from_dict x).error_message = JsonValue.null ∧
      (StreamEvent.from_dict x).error_param = JsonValue.null) := by
  constructor
  · intro h
    simp [StreamEvent.from_dict, dictGetD, h, pyStr, EventTypes.ERROR]
  · intro h
    have hne : pyStr (dictGetD x "type" (JsonValue.str "")) ≠ "error" := by
      cases hl : lookupKey x "type" with
      | none => simp [dictGetD, hl, pyStr]
      | some v =>
        simp only [dictGetD, hl]
        intro hv
        exact h (by rw [hl, (pyStr_eq_error_iff v).mp hv])
    simp [StreamEvent.from_dict, EventTypes.ERROR, hne]

/-- Witness for C1: concrete error event exposing its `code` field, and
a concrete non-error event keeping `error_code` absent. -/
theorem C1_error_field_isolation_witness :
    (StreamEvent.from_dict
        [("type", JsonValue.str "error"), ("code", JsonValue.str "rate_limited")]).error_code
      = dictGet [("type", JsonValue.str "error"), ("code", JsonValue.str "rate_limited")] "code" :=
  ((C1_error_field_isolation
      [("type", JsonValue.str "error"), ("code", JsonValue.str "rate_limited")]).1 rfl).1

/-- C2: decoding is total by construction (`StreamEvent.from_dict` is a
total Lean function over any mapping); when the raw object holds a
string `type`, the decoded event carries that type and every optional
field whose key is missing decodes to absent (Python `None`, modelled
by `JsonValue.null` or `Option.none`), never to zero or to the empty
string. -/
theorem C2_decoder_totality (x : JsonObj) (t : String)
    (h : lookupKey x "type" = some (JsonValue.str t)) :
    (parse_stream_event x).type = t ∧
    (lookupKey x "sequence_number" = none → (parse_stream_event x).sequence_number = none) ∧
    (lookupKey x "response" = none → (parse_stream_event x).response = none) ∧
    (lookupKey x "item_id" = none → (parse_stream_event x).item_id = JsonValue.null) ∧
    (lookupKey x "output_index" = none → (parse_stream_event x).output_index = JsonValue.null) ∧
    (lookupKey x "content_index" = none → (parse_stream_event x).content_index = JsonValue.null) ∧
    (lookupKey x "summary_index" = none → (parse_stream_event x).summary_index = JsonValue.null) ∧
    (lookupKey x "delta" = none → (parse_stream_event x).delta = JsonValue.null) ∧
    (lookupKey x "text" = none → (parse_stream_event x).text = JsonValue.null) ∧
    (lookupKey x "refusal" = none → (parse_stream_event x).refusal = JsonValue.null) ∧
    (lookupKey x "arguments" = none → (parse_stream_event x).arguments = JsonValue.null) ∧
    (lookupKey x "code" = none →
      (parse_stream_event x).code = JsonValue.null ∧
      (parse_stream_event x).error_code = JsonValue.null) ∧
    (lookupKey x "partial_image_b64" = none → (parse_stream_event x).partial_image_b64 = JsonValue.null) ∧
    (lookupKey x "partial_image_index" = none → (parse_stream_event x).partial_image_index = JsonValue.null) ∧
    (lookupKey x "annotation" = none → (parse_stream_event x).annotation_obj = none) ∧
    (lookupKey x "annotation_index" = none → (parse_stream_event x).annotation_index = JsonValue.null) ∧
    (lookupKey x "logprobs" = none → (parse_stream_event x).logprobs = none) ∧
    (lookupKey x "message" = none → (parse_stream_event x).error_message = JsonValue.null) ∧
    (lookupKey x "param" = none → (parse_stream_event x).error_param = JsonValue.null) := by
  refine ⟨?_, ?_, ?_, ?_, ?_, ?_, ?_, ?_, ?_, ?_, ?_, ?_, ?_, ?_, ?_, ?_, ?_, ?_, ?_⟩
  · simp [parse_stream_event, StreamEvent.from_dict, dictGetD, h, pyStr]
  all_goals
    intro habs
    simp [parse_stream_event, StreamEvent.from_dict, dictGet, dictGetD, habs, pyIsInt]

/-- Witness for C2 at a concrete minimal input. -/
theorem C2_decoder_totality_witness :
    (parse_stream_event [("type", JsonValue.str "response.created")]).type = "response.created" :=
  (C2_decoder_totality [("type", JsonValue.str "response.created")] "response.created" rfl).1

/-- C3: `is_terminal` holds exactly when the decoded type is one of
response.completed / response.failed / response.incomplete / error, and
fails for every other registered discriminator, in particular for
response.output_text.delta and response.queued. -/
theorem C3_terminal_predicate :
    (∀ x : JsonObj, (StreamEvent.from_dict x).is_terminal = true ↔
        (StreamEvent.from_dict x).type ∈ terminalTypes) ∧
    (∀ t : String, t ∈ registry → t ∉ terminalTypes →
        (StreamEvent.from_dict [("type", JsonValue.str t)]).is_terminal = false) ∧
    (StreamEvent.from_dict [("type", JsonValue.str "response.output_text.delta")]).is_terminal = false ∧
    (StreamEvent.from_dict [("type", JsonValue.str "response.queued")]).is_terminal = false := by
  have hmem : ∀ e : StreamEvent, e.is_terminal = true ↔ e.type ∈ terminalTypes := by
    intro e
    simp [StreamEvent.is_terminal]
  refine ⟨fun x => hmem _, ?_, ?_, ?_⟩
  · intro t h1 h2
    have ht : (StreamEvent.from_dict [("type", JsonValue.str t)]).type = t := by
      simp [StreamEvent.from_dict, dictGetD, lookupKey, pyStr]
    rw [← Bool.not_eq_true, hmem, ht]
    exact h2
  · decide
  · decide

/-- Witness for C3: a registered non-terminal discriminator decodes to
a non-terminal event. -/
theorem C3_terminal_predicate_witness :
    (StreamEvent.from_dict [("type", JsonValue.str "response.in_progress")]).is_terminal = false :=
  C3_terminal_predicate.2.1 "response.in_progress" (by decide) (by decide)

/-- C4: the decoded event retains the untouched original object in its
`raw` field, for every input mapping. -/
theorem C4_raw_preservation (x : JsonObj) : (parse_stream_event x).raw = x := rfl

/-- C10: decoding succeeds on every mapping, even without a string
`type`; the resulting type is the Python string conversion of the
`type` value, with "" when the key is absent, and e.g. the integer 7
coerces to the string "7". -/
theorem C10_type_coercion (x : JsonObj) :
    (parse_stream_event x).type = pyStr (dictGetD x "type" (JsonValue.str "")) ∧
    (lookupKey x "type" = none → (parse_stream_event x).type = "") ∧
    (parse_stream_event [("type", JsonValue.int 7)]).type = "7" := by
  refine ⟨rfl, ?_, ?_⟩
  · intro h
    simp [parse_stream_event, StreamEvent.from_dict, dictGetD, h, pyStr]
  · have h1 : (parse_stream_event [("type", JsonValue.int 7)]).type = pyStr (JsonValue.int 7) := rfl
    have h2 : pyStr (JsonValue.int 7) = intRepr 7 := by simp [pyStr, pyRepr]
    rw [h1, h2]
    decide

/-- Witness for C10: the empty mapping decodes with type "". -/
theorem C10_type_coercion_witness : (parse_stream_event []).type = "" :=
  (C10_type_coercion []).2.1 rfl

/-!
Uploads API (merlin/api/uploads.py): dataclasses `File`, `Upload`,
`UploadPart` and the `UploadsMixin` coordinator.  The HTTP transport is
modelled by a `Transport` record of server responses, and the calls the
coordinator issues are collected in an `ApiCall` trace (one entry per
HTTP round-trip, in issue order).  Chunk payloads are `List α`, one
element per byte.
-/

/-- The File record (merlin/api/files.py), as decoded from a completed
upload. -/
structure File : Type where
  id : String
  object : String
  bytes : Int
  created_at : Int
  expires_at : Option Int
  filename : String
  purpose : String
  status : Option String
  status_details : Option String

/-- Upload object that accepts byte chunks as Parts; once completed it
may contain a nested File. -/
structure Upload : Type where
  id : String
  object : String
  bytes : Int
  created_at : Int
  filename : String
  purpose : String
  status : String
  expires_at : Int
  file : Option File

/-- A single chunk (Part) added to an Upload. -/
structure UploadPart : Type where
  id : String
  object : String
  created_at : Int
  upload_id : String

/-- A binary file-like object: an open handle over byte contents with a
current position.  `hasFileno` models whether the object exposes an
underlying OS file descriptor (so `os.fstat` can report the full file
size); `name` models the optional `.name` attribute. -/
structure Handle (α : Type) : Type where
  contents : List α
  pos : Nat
  hasFileno : Bool
  name : Option String

/-- The dynamic `FileLike` input of the coordinator: a filesystem path
(string or Path, with the pointed-to file contents), in-memory bytes,
an already-open readable handle, or any other Python value
(`unsupported`, carrying its repr for the error message). -/
inductive UploadSource (α : Type) : Type where
  | path : String → List α → UploadSource α
  | buffer : List α → UploadSource α
  | handle : Handle α → UploadSource α
  | unsupported : String → UploadSource α

/-- Python exception raised by the coordinator: `TypeError` for caller
misuse detected locally, `RuntimeError` for protocol invariant
violations. -/
inductive UploadError : Type where
  | typeError : String → UploadError
  | runtimeError : String → UploadError

/-- One HTTP request issued by the coordinator, in issue order. -/
inductive ApiCall (α : Type) : Type where
  | createUpload : Nat → String → String → String → Option JsonObj → ApiCall α
  | addUploadPart : String → List α → ApiCall α
  | completeUpload : String → List String → Option String → ApiCall α

/-- Server / transport responses consumed by the coordinator:
the Upload returned by create, the UploadPart returned by the n-th
add-part call (0-based, in issue order), and the Upload returned by
complete. -/
structure Transport : Type where
  createResp : Upload
  partResp : Nat → UploadPart
  completeResp : Upload

/-- `UploadsMixin._infer_size`: size inference for a FileLike, returning
also the (possibly repositioned) source, since the buffering fallback
reads the handle to the end and then seeks it back to position 0.
Branch order follows the source: path stat, in-memory length, fstat via
the file descriptor, read-to-measure fallback, else TypeError. -/
def infer_size {α : Type} : UploadSource α → Except UploadError (Nat × UploadSource α)
  | UploadSource.path p c => Except.ok (c.length, UploadSource.path p c)
  | UploadSource.buffer c => Except.ok (c.length, UploadSource.buffer c)
  | UploadSource.handle h =>
    if h.hasFileno then Except.ok (h.contents.length, UploadSource.handle h)
    else Except.ok ((h.contents.drop h.pos).length,
      UploadSource.handle { h with pos := 0 })
  | UploadSource.unsupported d =>
    Except.error (UploadError.typeError ("Unable to infer size for: " ++ d))

/-- `UploadsMixin._coerce_file`: normalize a FileLike to an open binary
handle; a path is opened fresh at position 0 (the open file exposes a
file descriptor and its `.name` is the path), bytes become an in-memory
buffer at position 0, a handle is returned as is, anything else raises
TypeError. -/
def coerce_file {α : Type} : UploadSource α → Except UploadError (Handle α)
  | UploadSource.handle h => Except.ok h
  | UploadSource.path p c => Except.ok ⟨c, 0, true, some p⟩
  | UploadSource.buffer c => Except.ok ⟨c, 0, false, none⟩
  | UploadSource.unsupported d =>
    Except.error (UploadError.typeError ("Unsupported file type for upload: " ++ d))

/-- The chunk sequence produced by `while True: chunk =
fobj.read(part_size); if not chunk: break`, reading from the remaining
byte list.  `read(n)` returns the next `min n remaining` bytes, so the
loop is the fuel-driven `readChunksAux` with fuel equal to the number
of remaining bytes (always enough, see `readChunks_eq`). -/
def readChunksAux {α : Type} : Nat → List α → Nat → List (List α)
  | 0, _, _ => []
  | fuel + 1, rest, partSize =>
    let chunk := rest.take partSize
    if chunk.isEmpty then []
    else chunk :: readChunksAux fuel (rest.drop partSize) partSize

def readChunks {α : Type} (rest : List α) (partSize : Nat) : List (List α) :=
  readChunksAux rest.length rest partSize

/-- `UploadsMixin.multipart_upload`: infer the size, coerce the source,
default the filename from the handle name, create the upload, stream
the source in `partSize` chunks adding one part per chunk, collect the
returned part ids in emission order, complete with that ordered list,
and unwrap the nested file (RuntimeError when it is missing).  Returns
the result together with the trace of issued calls. -/
def multipart_upload {α : Type} (tr : Transport) (file : UploadSource α)
    (purpose : String) (mimeType : String) (filename : Option String)
    (partSize : Nat) (expiresAfter : Option JsonObj) (md5 : Option String) :
    Except UploadError File × List (ApiCall α) :=
  match infer_size file with
  | Except.error e => (Except.error e, [])
  | Except.ok (size, file2) =>
    match coerce_file file2 with
    | Except.error e => (Except.error e, [])
    | Except.ok fobj =>
      let fname :=
        match filename with
        | some nm => nm
        | none =>
          match fobj.name with
          | some nm => nm
          | none => "upload.bin"
      let upload := tr.createResp
      let chunks := readChunks (fobj.contents.drop fobj.pos) partSize
      let partIds := (List.range chunks.length).map (fun i => (tr.partResp i).id)
      let finalUpload := tr.completeResp
      let calls := ApiCall.createUpload size fname mimeType purpose expiresAfter
        :: (chunks.map (fun c => ApiCall.addUploadPart upload.id c)
            ++ [ApiCall.completeUpload upload.id partIds md5])
      match finalUpload.file with
      | none =>
        (Except.error (UploadError.runtimeError
          ("Upload " ++ finalUpload.id ++ " completed but no file was returned.")), calls)
      | some f => (Except.ok f, calls)

/-- The chunk payloads of the add-part calls of a trace, in order. -/
def addPartChunks {α : Type} : List (ApiCall α) → List (List α)
  | [] => []
  | ApiCall.addUploadPart _ c :: rest => c :: addPartChunks rest
  | ApiCall.createUpload _ _ _ _ _ :: rest => addPartChunks rest
  | ApiCall.completeUpload _ _ _ :: rest => addPartChunks rest

/-- Whether a call is a complete-upload request. -/
def isCompleteCall {α : Type} : ApiCall α → Bool
  | ApiCall.completeUpload _ _ _ => true
  | _ => false

/-- The complete-upload requests of a trace. -/
def completeCalls {α : Type} (t : List (ApiCall α)) : List (ApiCall α) :=
  t.filter isCompleteCall

def hasCompleteCall {α : Type} (t : List (ApiCall α)) : Bool :=
  t.any isCompleteCall

/-- The declared byte size of the first create-upload call of a trace. -/
def createCallBytes {α : Type} : List (ApiCall α) → Option Nat
  | [] => none
  | ApiCall.createUpload b _ _ _ _ :: _ => some b
  | ApiCall.addUploadPart _ _ :: rest => createCallBytes rest
  | ApiCall.completeUpload _ _ _ :: rest => createCallBytes rest

/-- Total number of bytes carried by the add-part calls of a trace. -/
def sumAddPartBytes {α : Type} (t : List (ApiCall α)) : Nat :=
  ((addPartChunks t).map List.length).sum

/-- Modelled from the spec: "the actual total number of bytes in the
source" — the number of bytes the byte source holds. -/
def specSourceTotalBytes {α : Type} : UploadSource α → Nat
  | UploadSource.path _ c => c.length
  | UploadSource.buffer c => c.length
  | UploadSource.handle h => h.contents.length
  | UploadSource.unsupported _ => 0

/-! Lemmas about the chunking loop. -/

theorem take_isEmpty_iff {α : Type} (l : List α) (n : Nat) :
    (l.take n).isEmpty = true ↔ n = 0 ∨ l = [] := by
  cases l with
  | nil => simp
  | cons a t =>
    cases n with
    | zero => simp
    | succ k => simp

theorem readChunksAux_nil {α : Type} (fuel psz : Nat) :
    readChunksAux (α := α) fuel [] psz = [] := by
  cases fuel <;> simp [readChunksAux]

theorem readChunksAux_congr {α : Type} :
    ∀ (fuel1 fuel2 : Nat) (rest : List α) (psz : Nat),
      rest.length ≤ fuel1 → rest.length ≤ fuel2 →
      readChunksAux fuel1 rest psz = readChunksAux fuel2 rest psz := by
  intro fuel1
  induction fuel1 with
  | zero =>
    intro fuel2 rest psz h1 _
    have hr : rest = [] := List.eq_nil_of_length_eq_zero (Nat.le_zero.mp h1)
    subst hr
    rw [readChunksAux_nil, readChunksAux_nil]
  | succ f ih =>
    intro fuel2 rest psz h1 h2
    cases fuel2 with
    | zero =>
      have hr : rest = [] := List.eq_nil_of_length_eq_zero (Nat.le_zero.mp h2)
      subst hr
      rw [readChunksAux_nil, readChunksAux_nil]
    | succ g =>
      simp only [readChunksAux]
      by_cases he : (rest.take psz).isEmpty = true
      · simp [he]
      · simp only [he, if_false, Bool.false_eq_true]
        congr 1
        have hp : psz ≠ 0 :=
          fun hx => he ((take_isEmpty_iff rest psz).mpr (Or.inl hx))
        have hr : rest ≠ [] :=
          fun hx => he ((take_isEmpty_iff rest psz).mpr (Or.inr hx))
        have hlen : 0 < rest.length := List.length_pos.mpr hr
        have hd : (rest.drop psz).length = rest.length - psz := List.length_drop psz rest
        apply ih
        · omega
        · omega

theorem readChunks_nil {α : Type} (psz : Nat) : readChunks ([] : List α) psz = [] := by
  simp [readChunks, readChunksAux_nil]

theorem readChunks_zero {α : Type} (rest : List α) : readChunks rest 0 = [] := by
  cases rest with
  | nil => exact readChunks_nil 0
  | cons a l => simp [readChunks, readChunksAux]

theorem readChunks_cons {α : Type} (rest : List α) (psz : Nat)
    (hp : psz ≠ 0) (hr : rest ≠ []) :
    readChunks rest psz = rest.take psz :: readChunks (rest.drop psz) psz := by
  cases rest with
  | nil => exact absurd rfl hr
  | cons a l =>
    cases psz with
    | zero => exact absurd rfl hp
    | succ k =>
      show readChunksAux (a :: l).length (a :: l) (k + 1) = _
      simp only [List.length_cons, readChunksAux, List.take_succ_cons, List.isEmpty_cons,
        Bool.false_eq_true, if_false]
      rw [List.drop_succ_cons]
      congr 1
      show readChunksAux l.length (l.drop k) (k + 1) = readChunksAux (l.drop k).length _ _
      apply readChunksAux_congr
      · rw [List.length_drop]; omega
      · exact le_rfl

theorem readChunksAux_length_le {α : Type} :
    ∀ (fuel : Nat) (rest : List α) (psz : Nat) (c : List α),
      c ∈ readChunksAux fuel rest psz → c.length ≤ psz := by
  intro fuel
  induction fuel with
  | zero => intro rest psz c hc; simp [readChunksAux] at hc
  | succ f ih =>
    intro rest psz c hc
    simp only [readChunksAux] at hc
    by_cases he : (rest.take psz).isEmpty = true
    · simp [he] at hc
    · simp only [he, if_false, Bool.false_eq_true] at hc
      rcases List.mem_cons.mp hc with h | h
      · subst h; exact List.length_take_le psz rest
      · exact ih _ _ _ h

theorem readChunksAux_ne_nil_inv {α : Type} (fuel : Nat) (rest : List α) (psz : Nat)
    (h : readChunksAux fuel rest psz ≠ []) : psz ≠ 0 ∧ rest ≠ [] := by
  cases fuel with
  | zero => simp [readChunksAux] at h
  | succ f =>
    simp only [readChunksAux] at h
    by_cases he : (rest.take psz).isEmpty = true
    · simp [he] at h
    · exact ⟨fun hx => he ((take_isEmpty_iff rest psz).mpr (Or.inl hx)),
             fun hx => he ((take_isEmpty_iff rest psz).mpr (Or.inr hx))⟩

theorem readChunksAux_dropLast_length {α : Type} :
    ∀ (fuel : Nat) (rest : List α) (psz : Nat) (c : List α),
      c ∈ (readChunksAux fuel rest psz).dropLast → c.length = psz := by
  intro fuel
  induction fuel with
  | zero => intro rest psz c hc; simp [readChunksAux] at hc
  | succ f ih =>
    intro rest psz c hc
    simp only [readChunksAux] at hc
    by_cases he : (rest.take psz).isEmpty = true
    · simp [he] at hc
    · simp only [he, if_false, Bool.false_eq_true] at hc
      cases htail : readChunksAux f (rest.drop psz) psz with
      | nil => rw [htail] at hc; simp at hc
      | cons t ts =>
        rw [htail] at hc
        rw [List.dropLast_cons₂] at hc
        rcases List.mem_cons.mp hc with h | h
        · subst h
          have hinv := readChunksAux_ne_nil_inv f (rest.drop psz) psz (by rw [htail]; simp)
          have hlen : 0 < (rest.drop psz).length := List.length_pos.mpr hinv.2
          have hd : (rest.drop psz).length = rest.length - psz := List.length_drop psz rest
          rw [List.length_take]
          omega
        · exact ih _ _ _ (by rw [htail]; exact h)

theorem readChunksAux_sum {α : Type} :
    ∀ (fuel : Nat) (rest : List α) (psz : Nat), rest.length ≤ fuel → 0 < psz →
      ((readChunksAux fuel rest psz).map List.length).sum = rest.length := by
  intro fuel
  induction fuel with
  | zero =>
    intro rest psz h1 _
    have hr : rest = [] := List.eq_nil_of_length_eq_zero (Nat.le_zero.mp h1)
    subst hr
    simp [readChunksAux]
  | succ f ih =>
    intro rest psz h1 hp
    simp only [readChunksAux]
    by_cases he : (rest.take psz).isEmpty = true
    · rcases (take_isEmpty_iff rest psz).mp he with h | h
      · omega
      · subst h; simp [he]
    · simp only [he, if_false, Bool.false_eq_true]
      have hr : rest ≠ [] :=
        fun hx => he ((take_isEmpty_iff rest psz).mpr (Or.inr hx))
      have hlen : 0 < rest.length := List.length_pos.mpr hr
      have hd : (rest.drop psz).length = rest.length - psz := List.length_drop psz rest
      rw [List.map_cons, List.sum_cons, ih (rest.drop psz) psz (by omega) hp]
      rw [List.length_take, hd]
      omega

theorem readChunks_length_le {α : Type} (rest : List α) (psz : Nat) (c : List α)
    (h : c ∈ readChunks rest psz) : c.length ≤ psz :=
  readChunksAux_length_le _ _ _ _ h

theorem readChunks_dropLast_length {α : Type} (rest : List α) (psz : Nat) (c : List α)
    (h : c ∈ (readChunks rest psz).dropLast) : c.length = psz :=
  readChunksAux_dropLast_length _ _ _ _ h

theorem readChunks_sum {α : Type} (rest : List α) (psz : Nat) (hp : 0 < psz) :
    ((readChunks rest psz).map List.length).sum = rest.length :=
  readChunksAux_sum _ _ _ le_rfl hp

/-! Lemmas about call traces. -/

theorem addPartChunks_parts_append_complete {α : Type} (uid : String)
    (chunks : List (List α)) (uid2 : String) (pids : List String) (m5 : Option String) :
    addPartChunks (chunks.map (fun c => ApiCall.addUploadPart uid c)
        ++ [ApiCall.completeUpload uid2 pids m5]) = chunks := by
  induction chunks with
  | nil => simp [addPartChunks]
  | cons c cs ih =>
    simp only [List.map_cons, List.cons_append, addPartChunks]
    exact congrArg (List.cons c) ih

theorem completeCalls_parts_append_complete {α : Type} (uid : String)
    (chunks : List (List α)) (uid2 : String) (pids : List String) (m5 : Option String) :
    completeCalls (chunks.map (fun c => ApiCall.addUploadPart uid c)
        ++ [ApiCall.completeUpload uid2 pids m5]) = [ApiCall.completeUpload uid2 pids m5] := by
  induction chunks with
  | nil => simp [completeCalls, List.filter, isCompleteCall]
  | cons c cs ih =>
    simp only [List.map_cons, List.cons_append, completeCalls, List.filter, isCompleteCall] at ih ⊢
    exact ih

/-- Shape of the call trace of `multipart_upload`: empty for an
unsupported source (the TypeError precedes every transport call), and
otherwise one create call, one add-part call per chunk of the coerced
handle's remaining bytes, and one complete call carrying the returned
part ids in emission order. -/
theorem multipart_upload_trace {α : Type} (tr : Transport) (file : UploadSource α)
    (pp mt : String) (fn : Option String) (psz : Nat) (ea : Option JsonObj)
    (m5 : Option String) :
    (∃ d, file = UploadSource.unsupported d ∧
      (multipart_upload tr file pp mt fn psz ea m5).2 = []) ∨
    (∃ size rest fname,
      (multipart_upload tr file pp mt fn psz ea m5).2 =
        ApiCall.createUpload size fname mt pp ea
          :: ((readChunks (α := α) rest psz).map (fun c => ApiCall.addUploadPart tr.createResp.id c)
              ++ [ApiCall.completeUpload tr.createResp.id
                   ((List.range (readChunks (α := α) rest psz).length).map
                     (fun i => (tr.partResp i).id)) m5])) := by
  cases file with
  | unsupported d =>
    left
    exact ⟨d, rfl, by simp [multipart_upload, infer_size]⟩
  | path p c =>
    right
    refine ⟨c.length, c, ?_, ?_⟩
    · exact match fn with | some nm => nm | none => p
    · cases htr : tr.completeResp.file <;> cases fn <;>
        simp [multipart_upload, infer_size, coerce_file, htr]
  | buffer c =>
    right
    refine ⟨c.length, c, ?_, ?_⟩
    · exact match fn with | some nm => nm | none => "upload.bin"
    · cases htr : tr.completeResp.file <;> cases fn <;>
        simp [multipart_upload, infer_size, coerce_file, htr]
  | handle h =>
    right
    by_cases hf : h.hasFileno = true
    · refine ⟨h.contents.length, h.contents.drop h.pos, ?_, ?_⟩
      · exact match fn with
          | some nm => nm
          | none => match h.name with | some nm => nm | none => "upload.bin"
      · cases htr : tr.completeResp.file <;> cases fn <;> cases hn : h.name <;>
          simp [multipart_upload, infer_size, coerce_file, htr, hf, hn]
    · refine ⟨(h.contents.drop h.pos).length, h.contents, ?_, ?_⟩
      · exact match fn with
          | some nm => nm
          | none => match h.name with | some nm => nm | none => "upload.bin"
      · cases htr : tr.completeResp.file <;> cases fn <;> cases hn : h.name <;>
          simp [multipart_upload, infer_size, coerce_file, htr, hf, hn]

theorem addPartChunks_cons_create {α : Type} (b : Nat) (fn mt pp : String)
    (ea : Option JsonObj) (L : List (ApiCall α)) :
    addPartChunks (ApiCall.createUpload b fn mt pp ea :: L) = addPartChunks L := rfl

theorem completeCalls_cons_create {α : Type} (b : Nat) (fn mt pp : String)
    (ea : Option JsonObj) (L : List (ApiCall α)) :
    completeCalls (ApiCall.createUpload b fn mt pp ea :: L) = completeCalls L := by
  simp [completeCalls, List.filter, isCompleteCall]

/-- Concrete server responses used to instantiate the theorems below. -/
def sampleFile : File :=
  ⟨"file_1", "file", 3, 0, none, "upload.bin", "assistants", none, none⟩

def sampleTransport : Transport :=
  ⟨⟨"upload_1", "upload", 3, 0, "upload.bin", "assistants", "pending", 0, none⟩,
   fun i => ⟨"part_" ++ natRepr i, "upload.part", 0, "upload_1"⟩,
   ⟨"upload_1", "upload", 3, 0, "upload.bin", "assistants", "completed", 0, some sampleFile⟩⟩

/-- C5: for any byte source and positive part size, every chunk passed
to add_upload_part is at most partSize bytes, and every chunk except
possibly the last is exactly partSize bytes. -/
theorem C5_chunk_size_bound {α : Type} (tr : Transport) (file : UploadSource α)
    (pp mt : String) (fn : Option String) (psz : Nat) (ea : Option JsonObj)
    (m5 : Option String) (hp : 0 < psz) :
    (∀ c ∈ addPartChunks (multipart_upload tr file pp mt fn psz ea m5).2, c.length ≤ psz) ∧
    (∀ c ∈ (addPartChunks (multipart_upload tr file pp mt fn psz ea m5).2).dropLast,
      c.length = psz) := by
  rcases multipart_upload_trace tr file pp mt fn psz ea m5 with
    ⟨d, _, ht⟩ | ⟨size, rest, fname, ht⟩
  · rw [ht]
    exact ⟨fun c hc => absurd hc (by simp [addPartChunks]),
           fun c hc => absurd hc (by simp [addPartChunks])⟩
  · rw [ht, addPartChunks_cons_create, addPartChunks_parts_append_complete]
    exact ⟨fun c hc => readChunks_length_le rest psz c hc,
           fun c hc => readChunks_dropLast_length rest psz c hc⟩

/-- Witness for C5: uploading 3 bytes with partSize 2 produces a first
chunk of exactly 2 bytes. -/
theorem C5_chunk_size_bound_witness : (([0, 1] : List Nat)).length = 2 :=
  (C5_chunk_size_bound sampleTransport (UploadSource.buffer [0, 1, 2]) "assistants"
      "application/octet-stream" none 2 none none (by decide)).2 [0, 1] (by decide)

/-- C8: an input that is not a path, bytes, or readable file-like
object is rejected with a descriptive TypeError and no transport call
is issued (the call trace is empty). -/
theorem C8_unsupported_source_rejected {α : Type} (d : String) (tr : Transport)
    (pp mt : String) (fn : Option String) (psz : Nat) (ea : Option JsonObj)
    (m5 : Option String) :
    multipart_upload tr (UploadSource.unsupported (α := α) d) pp mt fn psz ea m5 =
      (Except.error (UploadError.typeError ("Unable to infer size for: " ++ d)), []) := by
  simp [multipart_upload, infer_size]

/-- C7: when the orchestration reaches the complete step, a complete
response without a nested file makes multipart_upload fail with the
fatal RuntimeError (it never returns normally without a File), and a
complete response with a nested file makes it return exactly that
File. -/
theorem C7_missing_file_fatal {α : Type} (tr : Transport) (file : UploadSource α)
    (pp mt : String) (fn : Option String) (psz : Nat) (ea : Option JsonObj)
    (m5 : Option String)
    (hc : hasCompleteCall (multipart_upload tr file pp mt fn psz ea m5).2 = true) :
    (tr.completeResp.file = none →
      (multipart_upload tr file pp mt fn psz ea m5).1 =
        Except.error (UploadError.runtimeError
          ("Upload " ++ tr.completeResp.id ++ " completed but no file was returned."))) ∧
    (∀ f, tr.completeResp.file = some f →
      (multipart_upload tr file pp mt fn psz ea m5).1 = Except.ok f) := by
  cases file with
  | unsupported d => simp [multipart_upload, infer_size, hasCompleteCall] at hc
  | path p c =>
    constructor
    · intro h; simp [multipart_upload, infer_size, coerce_file, h]
    · intro f h; simp [multipart_upload, infer_size, coerce_file, h]
  | buffer c =>
    constructor
    · intro h; simp [multipart_upload, infer_size, coerce_file, h]
    · intro f h; simp [multipart_upload, infer_size, coerce_file, h]
  | handle hd =>
    constructor
    · intro h
      cases hf : hd.hasFileno <;>
        simp [multipart_upload, infer_size, coerce_file, h, hf]
    · intro f h
      cases hf : hd.hasFileno <;>
        simp [multipart_upload, infer_size, coerce_file, h, hf]

/-- Witness for C7: the sample transport returns a nested file, and the
coordinator returns exactly it. -/
theorem C7_missing_file_fatal_witness :
    (multipart_upload sampleTransport (UploadSource.buffer ([0] : List Nat)) "assistants"
        "application/octet-stream" none 1 none none).1 = Except.ok sampleFile :=
  (C7_missing_file_fatal sampleTransport (UploadSource.buffer [0]) "assistants"
      "application/octet-stream" none 1 none none (by decide)).2 sampleFile rfl

/-- C6: part ids returned by add_upload_part are collected in chunk
emission order and exactly that ordered list goes to the single
complete_upload call; a 150 MiB source with 64 MiB parts yields
exactly three add-part calls carrying 64 MiB, 64 MiB and 22 MiB, then
one complete call with the three part ids in that order. -/
theorem C6_part_order_and_scenario {α : Type} (tr : Transport) (pp mt : String)
    (md5 : Option String) (src : List α) (h : src.length = 157286400) :
    (∀ (file : UploadSource α) (fn : Option String) (psz : Nat) (ea : Option JsonObj)
        (m5 : Option String),
      completeCalls (multipart_upload tr file pp mt fn psz ea m5).2 = [] ∨
      completeCalls (multipart_upload tr file pp mt fn psz ea m5).2 =
        [ApiCall.completeUpload tr.createResp.id
          ((List.range (addPartChunks (multipart_upload tr file pp mt fn psz ea m5).2).length).map
            (fun i => (tr.partResp i).id)) m5]) ∧
    ((addPartChunks (multipart_upload tr (UploadSource.buffer src) pp mt none
          67108864 none md5).2).map List.length = [67108864, 67108864, 23068672] ∧
      completeCalls (multipart_upload tr (UploadSource.buffer src) pp mt none
          67108864 none md5).2 =
        [ApiCall.completeUpload tr.createResp.id
          [(tr.partResp 0).id, (tr.partResp 1).id, (tr.partResp 2).id] md5]) := by
  constructor
  · intro file fn psz ea m5
    rcases multipart_upload_trace tr file pp mt fn psz ea m5 with
      ⟨d, _, ht⟩ | ⟨size, rest, fname, ht⟩
    · left; rw [ht]; rfl
    · right
      rw [ht, completeCalls_cons_create, completeCalls_parts_append_complete,
        addPartChunks_cons_create, addPartChunks_parts_append_complete]
  · have ht : (multipart_upload tr (UploadSource.buffer src) pp mt none 67108864 none md5).2 =
        ApiCall.createUpload src.length "upload.bin" mt pp none
          :: ((readChunks src 67108864).map (fun c => ApiCall.addUploadPart tr.createResp.id c)
              ++ [ApiCall.completeUpload tr.createResp.id
                   ((List.range (readChunks src 67108864).length).map
                     (fun i => (tr.partResp i).id)) md5]) := by
      cases htr : tr.completeResp.file <;>
        simp [multipart_upload, infer_size, coerce_file, htr]
    have h1 : src ≠ [] := by intro hx; rw [hx] at h; simp at h
    have hd1 : (src.drop 67108864).length = 90177536 := by
      rw [List.length_drop]; omega
    have h2 : src.drop 67108864 ≠ [] := by
      intro hx; rw [hx] at hd1; simp at hd1
    have hd2 : ((src.drop 67108864).drop 67108864).length = 23068672 := by
      rw [List.length_drop, hd1]
    have h3 : (src.drop 67108864).drop 67108864 ≠ [] := by
      intro hx; rw [hx] at hd2; simp at hd2
    have hd3 : (((src.drop 67108864).drop 67108864).drop 67108864).length = 0 := by
      rw [List.length_drop, hd2]
    have h4 : ((src.drop 67108864).drop 67108864).drop 67108864 = [] :=
      List.eq_nil_of_length_eq_zero hd3
    have hchunks : readChunks src 67108864 =
        [src.take 67108864, (src.drop 67108864).take 67108864,
         ((src.drop 67108864).drop 67108864).take 67108864] := by
      rw [readChunks_cons src 67108864 (by omega) h1,
          readChunks_cons _ 67108864 (by omega) h2,
          readChunks_cons _ 67108864 (by omega) h3,
          h4, readChunks_nil]
    constructor
    · rw [ht, addPartChunks_cons_create, addPartChunks_parts_append_complete, hchunks]
      simp only [List.map_cons, List.map_nil]
      rw [List.length_take, List.length_take, List.length_take, h, hd1, hd2]
      norm_num [Nat.min_def]
    · rw [ht, completeCalls_cons_create, completeCalls_parts_append_complete, hchunks]
      simp [List.range_succ]

/-- Witness for C6 on a concrete 150 MiB source. -/
theorem C6_part_order_and_scenario_witness :
    (addPartChunks (multipart_upload sampleTransport
        (UploadSource.buffer (List.replicate 157286400 (0 : Nat))) "assistants"
        "application/octet-stream" none 67108864 none none).2).map List.length =
      [67108864, 67108864, 23068672] :=
  ((C6_part_order_and_scenario sampleTransport "assistants" "application/octet-stream"
      none (List.replicate 157286400 (0 : Nat)) (List.length_replicate 157286400 0)).2).1

/-- C9 counterexample: a readable handle positioned past the start of
its contents (position 1 of 2 bytes, no file descriptor): the size
passed to create_upload is 1, but the source holds 2 bytes and 2 bytes
are uploaded. -/
theorem C9_counterexample :
    createCallBytes (multipart_upload sampleTransport
        (UploadSource.handle (⟨[0, 1], 1, false, none⟩ : Handle Nat))
        "assistants" "application/octet-stream" none 64 none none).2 ≠
      some (specSourceTotalBytes
        (UploadSource.handle (⟨[0, 1], 1, false, none⟩ : Handle Nat))) ∧
    sumAddPartBytes (multipart_upload sampleTransport
        (UploadSource.handle (⟨[0, 1], 1, false, none⟩ : Handle Nat))
        "assistants" "application/octet-stream" none 64 none none).2 = 2 := by
  constructor
  · decide
  · decide

/-- C9 (amended): multipart_upload determines the size up front with
the source's branch order — filesystem stat for paths, length for
in-memory bytes, fstat for handles exposing a file descriptor, and
otherwise buffering (reading to the end, then seeking back to the
start); for paths, in-memory bytes, and handles positioned at the
start of the stream, the size passed to create_upload equals the
source's total byte count and equals the total bytes uploaded. -/
theorem C9_size_inference {α : Type} (tr : Transport) (file : UploadSource α)
    (pp mt : String) (fn : Option String) (psz : Nat) (ea : Option JsonObj)
    (m5 : Option String) (hp : 0 < psz)
    (hstart : ∀ hd : Handle α, file = UploadSource.handle hd → hd.pos = 0)
    (hsupp : ∀ d, file ≠ UploadSource.unsupported d) :
    createCallBytes (multipart_upload tr file pp mt fn psz ea m5).2 =
      some (specSourceTotalBytes file) ∧
    sumAddPartBytes (multipart_upload tr file pp mt fn psz ea m5).2 =
      specSourceTotalBytes file ∧
    (∀ (p : String) (c : List α), infer_size (UploadSource.path p c) =
      Except.ok (c.length, UploadSource.path p c)) ∧
    (∀ c : List α, infer_size (UploadSource.buffer c) =
      Except.ok (c.length, UploadSource.buffer c)) ∧
    (∀ hd : Handle α, hd.hasFileno = true → infer_size (UploadSource.handle hd) =
      Except.ok (hd.contents.length, UploadSource.handle hd)) ∧
    (∀ hd : Handle α, hd.hasFileno = false → infer_size (UploadSource.handle hd) =
      Except.ok ((hd.contents.drop hd.pos).length,
        UploadSource.handle { hd with pos := 0 })) := by
  have htrace : ∃ (fname : String) (rest : List α), rest.length = specSourceTotalBytes file ∧
      (multipart_upload tr file pp mt fn psz ea m5).2 =
        ApiCall.createUpload (specSourceTotalBytes file) fname mt pp ea
          :: ((readChunks rest psz).map (fun c => ApiCall.addUploadPart tr.createResp.id c)
              ++ [ApiCall.completeUpload tr.createResp.id
                   ((List.range (readChunks rest psz).length).map
                     (fun i => (tr.partResp i).id)) m5]) := by
    cases file with
    | unsupported d => exact absurd rfl (hsupp d)
    | path p c =>
      refine ⟨match fn with | some nm => nm | none => p, c, rfl, ?_⟩
      cases htr : tr.completeResp.file <;> cases fn <;>
        simp [multipart_upload, infer_size, coerce_file, htr, specSourceTotalBytes]
    | buffer c =>
      refine ⟨match fn with | some nm => nm | none => "upload.bin", c, rfl, ?_⟩
      cases htr : tr.completeResp.file <;> cases fn <;>
        simp [multipart_upload, infer_size, coerce_file, htr, specSourceTotalBytes]
    | handle hd =>
      have hpos : hd.pos = 0 := hstart hd rfl
      refine ⟨match fn with
          | some nm => nm
          | none => match hd.name with | some nm => nm | none => "upload.bin",
        hd.contents, ?_, ?_⟩
      · rfl
      · cases hf : hd.hasFileno <;> cases htr : tr.completeResp.file <;>
          cases fn <;> cases hn : hd.name <;>
            simp [multipart_upload, infer_size, coerce_file, htr, hf, hn, hpos,
              specSourceTotalBytes]
  obtain ⟨fname, rest, hlen, ht⟩ := htrace
  refine ⟨?_, ?_, by simp [infer_size], by simp [infer_size],
    by intro hd hf; simp [infer_size, hf], by intro hd hf; simp [infer_size, hf]⟩
  · rw [ht]; rfl
  · rw [ht]
    simp only [sumAddPartBytes, addPartChunks_cons_create, addPartChunks_parts_append_complete]
    rw [readChunks_sum rest psz hp, hlen]

/-- Witness for C9 at a concrete in-memory source. -/
theorem C9_size_inference_witness :
    createCallBytes (multipart_upload sampleTransport
        (UploadSource.buffer ([0, 1, 2] : List Nat)) "assistants"
        "application/octet-stream" none 2 none none).2 =
      some (specSourceTotalBytes (UploadSource.buffer ([0, 1, 2] : List Nat))) :=
  (C9_size_inference sampleTransport (UploadSource.buffer [0, 1, 2]) "assistants"
      "application/octet-stream" none 2 none none (by decide)
      (by intro hd hx; exact absurd hx (by simp))
      (by intro d hx; exact absurd hx (by simp))).1

end Merlin
